import Mathlib

/-
Verification of the lifetech4cloud control plane (backend/app): a shallow
embedding of the wallet ledger, the worker-callback verifier and handlers,
the worker registry, product worker-pool resolution and the session event
bus, with theorems about the behaviours the specification describes.

Database rows are modelled as records in lists; UUIDs as naturals; integer
columns as Int.  Each HTTP handler runs in one unit of work: the single
db.commit() sits at the end of the handler, and deps.get_db closes the
session (rolling back anything uncommitted) when an HTTPException
propagates, so a raised error leaves the durable state unchanged.  Handlers
are therefore embedded as functions into Except: the error branch is the
rolled-back transaction.
-/

/-- A row of the users table (app.models.User): id plus the legacy coins
balance that WalletService keeps in sync. -/
structure UserRec where
  id : Nat
  coins : Int
deriving Repr, DecidableEq

/-- A row of the wallets table: one per user, holding the stored balance. -/
structure WalletRec where
  user_id : Nat
  balance : Int
deriving Repr, DecidableEq

/-- A row of the ledger_entries table: one immutable balance adjustment. -/
structure LedgerRec where
  user_id : Nat
  entry_type : String
  amount : Int
  balance_after : Int
  ref_id : Option Nat
deriving Repr, DecidableEq

/-- A row of the admin_tokens table.  The secret field stands for
decrypt_secret(token_ciphertext); revoked for (revoked_at is not None). -/
structure AdminTokenRec where
  id : Nat
  secret : String
  revoked : Bool
deriving Repr, DecidableEq

/-- A row of the workers table, with the fields both generations of the
schema use: the callback handlers read token_id / current_jobs /
last_heartbeat, the registry and product pool read status / max_sessions.
last_net_mbps and last_req_rate are numeric telemetry, modelled on Int. -/
structure WorkerRec where
  id : Nat
  name : Option String
  base_url : String
  token_id : Option Nat
  status : String
  current_jobs : Int
  max_sessions : Int
  last_heartbeat : Option Int
  last_net_mbps : Option Int
  last_req_rate : Option Int
deriving Repr, DecidableEq

/-- A row of the vps_products table; worker_ids is the
vps_product_workers association. -/
structure ProductRec where
  id : Nat
  name : String
  price_coins : Int
  provision_action : Int
  is_active : Bool
  worker_ids : List Nat
deriving Repr, DecidableEq

/-- A row of the vps_sessions table.  Timestamps are Unix seconds. -/
structure SessionRec where
  id : Nat
  user_id : Option Nat
  product_id : Option Nat
  worker_id : Option Nat
  status : String
  checklist : List String
  rdp_host : Option String
  rdp_port : Option Int
  rdp_user : Option String
  rdp_password : Option String
  log_url : Option String
  idempotency_key : Option String
  updated_at : Option Int
deriving Repr, DecidableEq

/-- The payload of one published event: the dict the handlers pass to
SessionEventBus.publish. -/
inductive EventData where
  | checklist (items : List String)
  | statusUpdate (status : String)
  | ready (host : Option String) (port : Option Int) (user : Option String)
      (password : Option String) (logUrl : Option String)
  | failed (message : String)
deriving Repr, DecidableEq

/-- One published event: the "event" discriminator plus its data. -/
structure EventMsg where
  event : String
  data : EventData
deriving Repr, DecidableEq

/-- The durable state one unit of work reads and writes, plus two effect
logs: events published on the session bus after commit, and outbound job
dispatches. -/
structure SysState where
  users : List UserRec
  wallets : List WalletRec
  ledger : List LedgerRec
  tokens : List AdminTokenRec
  workers : List WorkerRec
  products : List ProductRec
  sessions : List SessionRec
  events : List (Nat × EventMsg)
  dispatches : List Nat
deriving Repr, DecidableEq

/-- The error taxonomy of the embedded handlers: an HTTPException with the
given status class, or an unhandled exception (internal). -/
inductive ApiError where
  | badRequest (detail : String)
  | unauthorized (detail : String)
  | notFound (detail : String)
  | internal
deriving Repr, DecidableEq

deriving instance DecidableEq for Except

def findWallet (st : SysState) (uid : Nat) : Option WalletRec :=
  st.wallets.find? (fun w => w.user_id == uid)

def getWorker (st : SysState) (wid : Nat) : Option WorkerRec :=
  st.workers.find? (fun w => w.id == wid)

def getToken (st : SysState) (tid : Nat) : Option AdminTokenRec :=
  st.tokens.find? (fun t => t.id == tid)

def getSession (st : SysState) (sid : Nat) : Option SessionRec :=
  st.sessions.find? (fun s => s.id == sid)

def getUser (st : SysState) (uid : Nat) : Option UserRec :=
  st.users.find? (fun u => u.id == uid)

def getProduct (st : SysState) (pid : Nat) : Option ProductRec :=
  st.products.find? (fun p => p.id == pid)

/-- WalletService.get_balance: the wallet row's balance, falling back to
the legacy user.coins field when no wallet row exists. -/
def get_balance (st : SysState) (u : UserRec) : Int :=
  match findWallet st u.id with
  | some w => w.balance
  | none => u.coins

/-- The balance of the user with the given id, through get_balance. -/
def userBalance (st : SysState) (uid : Nat) : Int :=
  match getUser st uid with
  | some u => get_balance st u
  | none => 0

/-- WalletService.adjust_balance (services/wallet.py lines 30-72).  Reads
the wallet row (creating it seeded from user.coins when absent), computes
new = seed + amount, raises 400 "Insufficient balance" when new < 0, else
writes the balance, syncs user.coins, and appends exactly one ledger
entry.  The error branch is the rolled-back unit of work: no caller
commits after the HTTPException, so the flushed wallet row of the
insufficient-funds path never becomes durable. -/
def adjust_balance (st : SysState) (u : UserRec) (amount : Int)
    (entry_type : String) (ref_id : Option Nat) :
    Except ApiError (SysState × Int) :=
  let seed_balance : Int :=
    match findWallet st u.id with
    | none => u.coins
    | some w => w.balance
  let new_balance := seed_balance + amount
  if new_balance < 0 then
    .error (.badRequest "Insufficient balance")
  else
    let wallets :=
      match findWallet st u.id with
      | none => ({ user_id := u.id, balance := new_balance } : WalletRec) :: st.wallets
      | some _ => st.wallets.map (fun w =>
          if w.user_id == u.id then { w with balance := new_balance } else w)
    let users := st.users.map (fun x =>
      if x.id == u.id then { x with coins := new_balance } else x)
    let entry : LedgerRec :=
      { user_id := u.id, entry_type := entry_type, amount := amount,
        balance_after := new_balance, ref_id := ref_id }
    .ok ({ st with
            wallets := wallets,
            users := users,
            ledger := st.ledger ++ [entry] }, new_balance)

/-- Sum of the amounts of the ledger entries recorded for one user. -/
def ledgerSumFor (st : SysState) (uid : Nat) : Int :=
  ((st.ledger.filter (fun e => e.user_id == uid)).map (fun e => e.amount)).sum

/-- One caller-side adjust call: fetch the user row, run adjust_balance,
keep the old state when it raises (rollback). -/
def applyAdjust (uid : Nat) (st : SysState) (c : Int × String × Option Nat) :
    SysState :=
  match st.users.find? (fun x => x.id == uid) with
  | none => st
  | some u =>
    match adjust_balance st u c.1 c.2.1 c.2.2 with
    | .ok r => r.1
    | .error _ => st

/-- A sequence of adjust calls for one user, each its own unit of work. -/
def runAdjusts (uid : Nat) (st : SysState) (calls : List (Int × String × Option Nat)) :
    SysState :=
  calls.foldl (applyAdjust uid) st

example :
    adjust_balance
      { users := [{ id := 1, coins := 0 }], wallets := [], ledger := [],
        tokens := [], workers := [], products := [], sessions := [],
        events := [], dispatches := [] }
      { id := 1, coins := 0 } 10 "ads.reward" none
    = .ok ({ users := [{ id := 1, coins := 10 }],
             wallets := [{ user_id := 1, balance := 10 }], ledger := [
               { user_id := 1, entry_type := "ads.reward", amount := 10,
                 balance_after := 10, ref_id := none }],
             tokens := [], workers := [], products := [], sessions := [],
             events := [], dispatches := [] }, 10) := by
  rfl

theorem find_map_ite {α : Type} (p : α → Bool) (f : α → α)
    (hp : ∀ a, p a = true → p (f a) = true) (l : List α) :
    (l.map (fun a => if p a then f a else a)).find? p = (l.find? p).map f := by
  induction l with
  | nil => rfl
  | cons a t ih =>
    cases h : p a
    · rw [List.map_cons, if_neg (by simp [h]), List.find?_cons_of_neg _ (by simp [h]),
        List.find?_cons_of_neg _ (by simp [h]), ih]
    · rw [List.map_cons, if_pos h, List.find?_cons_of_pos _ (hp a h),
        List.find?_cons_of_pos _ h, Option.map_some']

theorem mem_map_ite {α : Type} (p : α → Bool) (f : α → α) (l : List α) (x : α)
    (hx : x ∈ l.map (fun a => if p a then f a else a)) :
    (∃ a ∈ l, p a = true ∧ x = f a) ∨ (x ∈ l ∧ p x = false) := by
  obtain ⟨a, ha, hfa⟩ := List.mem_map.mp hx
  cases h : p a
  · right
    rw [if_neg (by simp [h])] at hfa
    exact ⟨hfa ▸ ha, hfa ▸ h⟩
  · left
    rw [if_pos h] at hfa
    exact ⟨a, ha, h, hfa.symm⟩

/-- The per-user wallet invariant maintained by sequences of adjust calls:
once the wallet row exists, its balance is the creation-time seed plus the
ledger sum, it is non-negative, and user.coins tracks it; before it
exists, no ledger entries for the user have been written and user.coins
still holds the seed. -/
def walletInv (uid : Nat) (c : Int) (st : SysState) : Prop :=
  match findWallet st uid with
  | none =>
    (∀ e ∈ st.ledger, e.user_id ≠ uid) ∧ (∀ u ∈ st.users, u.id = uid → u.coins = c)
  | some w =>
    w.balance = c + ledgerSumFor st uid ∧ 0 ≤ w.balance
      ∧ (∀ u ∈ st.users, u.id = uid → u.coins = w.balance)

theorem applyAdjust_inv (uid : Nat) (c : Int) (st : SysState)
    (call : Int × String × Option Nat) (h : walletInv uid c st) :
    walletInv uid c (applyAdjust uid st call) := by
  unfold applyAdjust
  cases hu : st.users.find? (fun x => x.id == uid) with
  | none => exact h
  | some u =>
    have huid : u.id = uid := by simpa using List.find?_some hu
    have humem : u ∈ st.users := List.mem_of_find?_eq_some hu
    unfold adjust_balance
    cases hw : findWallet st u.id with
    | none =>
      have hwuid : findWallet st uid = none := huid ▸ hw
      have hinv := h
      unfold walletInv at hinv
      rw [hwuid] at hinv
      obtain ⟨hled, hcoins⟩ := hinv
      have hseed : u.coins = c := hcoins u humem huid
      by_cases hneg : u.coins + call.1 < 0
      · simp only [hw, if_pos hneg]
        exact h
      · simp only [hw, if_neg hneg]
        unfold walletInv
        have hfw : findWallet
            ({ st with
                wallets := ({ user_id := u.id, balance := u.coins + call.1 } : WalletRec)
                  :: st.wallets,
                users := st.users.map (fun x =>
                  if x.id == u.id then { x with coins := u.coins + call.1 } else x),
                ledger := st.ledger ++
                  [{ user_id := u.id, entry_type := call.2.1, amount := call.1,
                     balance_after := u.coins + call.1, ref_id := call.2.2 }] } : SysState)
            uid = some { user_id := u.id, balance := u.coins + call.1 } := by
          simp [findWallet, List.find?_cons_of_pos, huid]
        rw [hfw]
        refine ⟨?_, ?_, ?_⟩
        · have hfilter : (st.ledger.filter (fun e => e.user_id == uid)) = [] := by
            rw [List.filter_eq_nil_iff]
            intro e he
            simp [hled e he]
          simp [ledgerSumFor, List.filter_append, hfilter, huid, hseed]
        · show (0 : Int) ≤ u.coins + call.1
          omega
        · intro x hx hxid
          rcases mem_map_ite _ _ _ _ hx with ⟨a, _, _, hxa⟩ | ⟨hxmem, hxp⟩
          · simp [hxa]
          · exact absurd (by simp [hxid, huid] : (fun x => x.id == u.id) x = true)
              (by simp [hxp])
    | some w =>
      have hwuid : findWallet st uid = some w := huid ▸ hw
      have hinv := h
      unfold walletInv at hinv
      rw [hwuid] at hinv
      obtain ⟨hbal, hpos, hcoins⟩ := hinv
      by_cases hneg : w.balance + call.1 < 0
      · simp only [hw, if_pos hneg]
        exact h
      · simp only [hw, if_neg hneg]
        unfold walletInv
        have hfw : findWallet
            ({ st with
                wallets := st.wallets.map (fun x =>
                  if x.user_id == u.id then { x with balance := w.balance + call.1 } else x),
                users := st.users.map (fun x =>
                  if x.id == u.id then { x with coins := w.balance + call.1 } else x),
                ledger := st.ledger ++
                  [{ user_id := u.id, entry_type := call.2.1, amount := call.1,
                     balance_after := w.balance + call.1, ref_id := call.2.2 }] } : SysState)
            uid = some { w with balance := w.balance + call.1 } := by
          have := find_map_ite (fun x : WalletRec => x.user_id == uid)
            (fun x => { x with balance := w.balance + call.1 }) (fun a ha => ha) st.wallets
          unfold findWallet
          simp only [huid]
          unfold findWallet at hwuid
          rw [this, hwuid, Option.map_some']
        rw [hfw]
        refine ⟨?_, ?_, ?_⟩
        · have hwuid2 : w.user_id = uid := by
            simpa using List.find?_some hwuid
          simp [ledgerSumFor, List.filter_append, huid, hwuid2, hbal]
          ring
        · simpa using hneg
        · intro x hx hxid
          rcases mem_map_ite _ _ _ _ hx with ⟨a, _, _, hxa⟩ | ⟨hxmem, hxp⟩
          · simp [hxa]
          · exact absurd (by simp [hxid, huid] : (fun x => x.id == u.id) x = true)
              (by simp [hxp])

theorem runAdjusts_inv (uid : Nat) (c : Int) (calls : List (Int × String × Option Nat)) :
    ∀ st : SysState, walletInv uid c st → walletInv uid c (runAdjusts uid st calls) := by
  induction calls with
  | nil => intro st h; exact h
  | cons call rest ih =>
    intro st h
    exact ih (applyAdjust uid st call) (applyAdjust_inv uid c st call h)

def walletDemoState : SysState :=
  { users := [{ id := 1, coins := 0 }], wallets := [], ledger := [], tokens := [],
    workers := [], products := [], sessions := [], events := [], dispatches := [] }

def walletDemoAfter : SysState :=
  { users := [{ id := 1, coins := 10 }], wallets := [{ user_id := 1, balance := 10 }],
    ledger := [{ user_id := 1, entry_type := "ads.reward", amount := 10,
                 balance_after := 10, ref_id := none }],
    tokens := [], workers := [], products := [], sessions := [], events := [],
    dispatches := [] }

def walletSeedState : SysState :=
  { users := [{ id := 1, coins := 5 }], wallets := [], ledger := [], tokens := [],
    workers := [], products := [], sessions := [], events := [], dispatches := [] }

/-- C2 counterexample: the claim "stored wallet balance equals the sum of
the ledger amounts" fails as stated.  Concrete input: a user whose legacy
coins field is 5 and a single adjust_balance(+10) call.  adjust_balance
seeds the newly created wallet from user.coins without writing a ledger
entry for the seed, so the stored balance is 15 while the ledger sum is
10. -/
theorem wallet_ledger_sum_counterexample :
    findWallet (runAdjusts 1 walletSeedState [(10, "ads.reward", none)]) 1
        = some { user_id := 1, balance := 15 }
      ∧ ledgerSumFor (runAdjusts 1 walletSeedState [(10, "ads.reward", none)]) 1 = 10
      ∧ (15 : Int) ≠ 10 := by
  refine ⟨by decide, by decide, by decide⟩

/-- C2 (amended): for every user and every sequence of adjust_balance
calls starting from a state with no wallet row and no ledger entries for
that user, the stored wallet balance always equals the user's legacy
coins seed plus the sum of all recorded ledger-entry amounts for that
user, and the stored balance is never negative.  (The unamended claim
holds exactly when the seed is zero.) -/
theorem wallet_balance_seed_invariant (uid : Nat) (c : Int) (st0 : SysState)
    (calls : List (Int × String × Option Nat))
    (hw0 : findWallet st0 uid = none)
    (hl0 : ∀ e ∈ st0.ledger, e.user_id ≠ uid)
    (hu0 : ∀ u ∈ st0.users, u.id = uid → u.coins = c) :
    ∀ w, findWallet (runAdjusts uid st0 calls) uid = some w →
      w.balance = c + ledgerSumFor (runAdjusts uid st0 calls) uid ∧ 0 ≤ w.balance := by
  have h0 : walletInv uid c st0 := by
    unfold walletInv
    rw [hw0]
    exact ⟨hl0, hu0⟩
  have h1 := runAdjusts_inv uid c calls st0 h0
  intro w hw
  unfold walletInv at h1
  rw [hw] at h1
  exact ⟨h1.1, h1.2.1⟩

theorem wallet_balance_seed_invariant_witness :
    ({ user_id := 1, balance := 10 } : WalletRec).balance
        = 0 + ledgerSumFor (runAdjusts 1 walletDemoState [(10, "ads.reward", none)]) 1
      ∧ 0 ≤ ({ user_id := 1, balance := 10 } : WalletRec).balance :=
  wallet_balance_seed_invariant 1 0 walletDemoState [(10, "ads.reward", none)]
    (by decide) (by simp [walletDemoState]) (by decide)
    { user_id := 1, balance := 10 } (by decide)

/-- Full characterisation of adjust_balance, shared by several proofs:
the error case is exactly a negative resulting balance, and the success
case describes every component of the state. -/
theorem adjust_balance_spec_aux (st : SysState) (u : UserRec) (amount : Int)
    (t : String) (r : Option Nat) :
    (adjust_balance st u amount t r = .error (.badRequest "Insufficient balance")
        ↔ get_balance st u + amount < 0)
    ∧ (∀ st2 b, adjust_balance st u amount t r = .ok (st2, b) →
        b = get_balance st u + amount ∧ 0 ≤ b
        ∧ findWallet st2 u.id = some { user_id := u.id, balance := b }
        ∧ st2.users = st.users.map (fun x =>
            if x.id == u.id then { x with coins := b } else x)
        ∧ st2.ledger = st.ledger ++
            [{ user_id := u.id, entry_type := t, amount := amount,
               balance_after := b, ref_id := r }]
        ∧ st2.tokens = st.tokens ∧ st2.workers = st.workers
        ∧ st2.products = st.products ∧ st2.sessions = st.sessions
        ∧ st2.events = st.events ∧ st2.dispatches = st.dispatches) := by
  cases hw : findWallet st u.id with
  | none =>
    by_cases hneg : u.coins + amount < 0
    · constructor
      · simp [adjust_balance, get_balance, hw, hneg]
      · intro st2 b h
        simp [adjust_balance, hw, hneg] at h
    · constructor
      · simp [adjust_balance, get_balance, hw, hneg]
      · intro st2 b h
        simp only [adjust_balance, hw, if_neg hneg] at h
        obtain ⟨hst2, hb⟩ := And.intro (congrArg Prod.fst (Except.ok.inj h))
          (congrArg Prod.snd (Except.ok.inj h))
        subst hb
        subst hst2
        refine ⟨by simp [get_balance, hw], by omega, ?_, rfl, rfl, rfl, rfl, rfl, rfl, rfl, rfl⟩
        simp [findWallet]
    | some w =>
    have hwid : w.user_id = u.id := by simpa using List.find?_some hw
    by_cases hneg : w.balance + amount < 0
    · constructor
      · simp [adjust_balance, get_balance, hw, hneg]
      · intro st2 b h
        simp [adjust_balance, hw, hneg] at h
    · constructor
      · simp [adjust_balance, get_balance, hw, hneg]
      · intro st2 b h
        simp only [adjust_balance, hw, if_neg hneg] at h
        obtain ⟨hst2, hb⟩ := And.intro (congrArg Prod.fst (Except.ok.inj h))
          (congrArg Prod.snd (Except.ok.inj h))
        subst hb
        subst hst2
        refine ⟨by simp [get_balance, hw], by omega, ?_, rfl, rfl, rfl, rfl, rfl, rfl, rfl, rfl⟩
        show findWallet _ u.id = _
        unfold findWallet
        have := find_map_ite (fun x : WalletRec => x.user_id == u.id)
          (fun x => { x with balance := w.balance + amount }) (fun a ha => ha) st.wallets
        simp only []
        rw [this]
        unfold findWallet at hw
        rw [hw, Option.map_some']
        rw [show ({ w with balance := w.balance + amount } : WalletRec)
          = { user_id := u.id, balance := w.balance + amount } from by
            cases w
            simp_all]

/-- adjust_balance succeeds whenever the resulting balance would be
non-negative, returning exactly that balance. -/
theorem adjust_balance_ok_of_nonneg (st : SysState) (u : UserRec) (amount : Int)
    (t : String) (r : Option Nat) (h : 0 ≤ get_balance st u + amount) :
    ∃ st2, adjust_balance st u amount t r = .ok (st2, get_balance st u + amount) := by
  cases hw : findWallet st u.id with
  | none =>
    have hb : get_balance st u = u.coins := by simp [get_balance, hw]
    rw [hb] at h ⊢
    simp only [adjust_balance, hw, if_neg (by omega : ¬ u.coins + amount < 0)]
    exact ⟨_, rfl⟩
  | some w =>
    have hb : get_balance st u = w.balance := by simp [get_balance, hw]
    rw [hb] at h ⊢
    simp only [adjust_balance, hw, if_neg (by omega : ¬ w.balance + amount < 0)]
    exact ⟨_, rfl⟩

/-- C3: adjust_balance rejects with the InsufficientFunds error (HTTP 400
"Insufficient balance") exactly when the current balance plus the delta is
negative — and the raised error aborts the unit of work, so no balance
write, ledger entry or wallet row becomes durable (the Except error branch
is the rolled-back transaction); otherwise it writes the new balance,
appends exactly one ledger entry recording the delta, and returns the
resulting balance, touching nothing else. -/
theorem adjust_balance_correct (st : SysState) (u : UserRec) (amount : Int)
    (t : String) (r : Option Nat) :
    (adjust_balance st u amount t r = .error (.badRequest "Insufficient balance")
        ↔ get_balance st u + amount < 0)
    ∧ (∀ st2 b, adjust_balance st u amount t r = .ok (st2, b) →
        b = get_balance st u + amount ∧ 0 ≤ b
        ∧ findWallet st2 u.id = some { user_id := u.id, balance := b }
        ∧ st2.users = st.users.map (fun x =>
            if x.id == u.id then { x with coins := b } else x)
        ∧ st2.ledger = st.ledger ++
            [{ user_id := u.id, entry_type := t, amount := amount,
               balance_after := b, ref_id := r }]
        ∧ st2.tokens = st.tokens ∧ st2.workers = st.workers
        ∧ st2.products = st.products ∧ st2.sessions = st.sessions
        ∧ st2.events = st.events ∧ st2.dispatches = st.dispatches) :=
  adjust_balance_spec_aux st u amount t r

theorem adjust_balance_correct_witness :
    (10 : Int) = get_balance walletDemoState { id := 1, coins := 0 } + 10
      ∧ 0 ≤ (10 : Int)
      ∧ findWallet walletDemoAfter 1 = some { user_id := 1, balance := 10 }
      ∧ walletDemoAfter.users = walletDemoState.users.map (fun x =>
          if x.id == 1 then { x with coins := 10 } else x)
      ∧ walletDemoAfter.ledger = walletDemoState.ledger ++
          [{ user_id := 1, entry_type := "ads.reward", amount := 10,
             balance_after := 10, ref_id := none }]
      ∧ walletDemoAfter.tokens = walletDemoState.tokens
      ∧ walletDemoAfter.workers = walletDemoState.workers
      ∧ walletDemoAfter.products = walletDemoState.products
      ∧ walletDemoAfter.sessions = walletDemoState.sessions
      ∧ walletDemoAfter.events = walletDemoState.events
      ∧ walletDemoAfter.dispatches = walletDemoState.dispatches :=
  (adjust_balance_correct walletDemoState { id := 1, coins := 0 } 10 "ads.reward" none).2
    walletDemoAfter 10 (by rfl)

/-- crypto.compute_worker_signature (security/crypto.py lines 102-105):
the hex HMAC-SHA256 of the payload bytes concatenated with the UTF-8
timestamp string.  The HMAC-SHA256-hex primitive is Python's hmac/hashlib
library, abstracted as the function argument hm (secret, message to hex
digest); bodies and messages are modelled as strings. -/
def compute_worker_signature (hm : String → String → String) (secret : String)
    (payload : String) (timestamp : String) : String :=
  hm secret (payload ++ timestamp)

/-- crypto.verify_worker_signature (lines 108-110): recompute and compare.
hmac.compare_digest is a constant-time comparison; its value is string
equality, which is what a functional embedding can express. -/
def verify_worker_signature (hm : String → String → String) (secret : String)
    (payload : String) (timestamp : String) (signature : String) : Bool :=
  compute_worker_signature hm secret payload timestamp == signature

def digitVal (c : Char) : Option Nat :=
  if c.isDigit then some (c.toNat - 48) else none

def parseDigitsAux : List Char → Nat → Option Nat
  | [], acc => some acc
  | c :: rest, acc =>
    match digitVal c with
    | some d => parseDigitsAux rest (acc * 10 + d)
    | none => none

/-- A non-empty all-digit decimal string, as a natural. -/
def parseDec (s : String) : Option Nat :=
  match s.data with
  | [] => none
  | cs => parseDigitsAux cs 0

/-- worker_callbacks._parse_timestamp: float(raw), 400 "Invalid timestamp"
on ValueError; modelled for non-negative whole-second decimal timestamp
strings. -/
def parse_timestamp (raw : String) : Except ApiError Int :=
  match parseDec raw with
  | some v => .ok (v : Int)
  | none => .error (.badRequest "Invalid timestamp")

/-- UUID(header) parsing: a malformed id raises ValueError, turned into a
400 by the handlers; UUIDs are modelled as naturals in decimal. -/
def parse_uuid (s : String) : Option Nat :=
  parseDec s

def CLOCK_SKEW_SECONDS : Nat := 300

/-- An inbound callback request: the three authentication headers (none is
a missing header) and the raw body. -/
structure CallbackRequest where
  worker_id_header : Option String
  timestamp_header : Option String
  signature_header : Option String
  body : String
deriving Repr, DecidableEq

/-- The fields the three callback handlers read from the JSON body via
payload.get; none stands for an absent (or JSON-null) key. -/
structure CallbackPayload where
  session_id : Option Nat
  status : Option String
  current_jobs : Option Int
  net_mbps : Option Int
  req_rate : Option Int
  items : Option (List String)
  rdp_host : Option String
  rdp_port : Option Int
  rdp_user : Option String
  rdp_password : Option String
  log_url : Option String
  message : Option String
deriving Repr, DecidableEq

/-- worker_callbacks._verify_request (lines 73-97): header presence, id
parse, worker lookup, worker.token_id and token row present and not
revoked, timestamp parse, |now - ts| ≤ 300, and the HMAC signature over
body ++ timestamp.  Returns the worker and raw body; any failure raises,
aborting the unit of work before any state is touched. -/
def verify_request (hm : String → String → String) (now : Int) (st : SysState)
    (req : CallbackRequest) : Except ApiError (WorkerRec × String) :=
  match req.worker_id_header, req.timestamp_header, req.signature_header with
  | some widS, some tsS, some sigS =>
    if widS == "" || tsS == "" || sigS == "" then
      .error (.unauthorized "Missing worker signature headers")
    else
      match parse_uuid widS with
      | none => .error (.badRequest "Invalid worker id")
      | some wid =>
        match getWorker st wid with
        | none => .error (.unauthorized "Unknown worker")
        | some worker =>
          match worker.token_id with
          | none => .error (.unauthorized "Unknown worker")
          | some tid =>
            match getToken st tid with
            | none => .error (.unauthorized "Worker token revoked")
            | some token =>
              if token.revoked then
                .error (.unauthorized "Worker token revoked")
              else
                match parse_timestamp tsS with
                | .error e => .error e
                | .ok ts =>
                  if CLOCK_SKEW_SECONDS < (now - ts).natAbs then
                    .error (.unauthorized "Clock skew too large")
                  else
                    if verify_worker_signature hm token.secret req.body tsS sigS then
                      .ok (worker, req.body)
                    else
                      .error (.unauthorized "Invalid signature")
  | _, _, _ => .error (.unauthorized "Missing worker signature headers")

/-- worker_callbacks.worker_status (lines 107-122): after verification,
store the reported load and telemetry, stamp the heartbeat, and derive
busy/idle from the reported job count.  pj models json.loads on the raw
body; a parse failure is an unhandled exception (500), which also rolls
the unit of work back. -/
def worker_status (hm : String → String → String)
    (pj : String → Option CallbackPayload) (now : Int) (st : SysState)
    (req : CallbackRequest) : Except ApiError SysState :=
  match verify_request hm now st req with
  | .error e => .error e
  | .ok (worker, body) =>
    match pj body with
    | none => .error .internal
    | some payload =>
      let current_jobs := payload.current_jobs.getD worker.current_jobs
      let worker2 := { worker with
        current_jobs := current_jobs,
        last_net_mbps := payload.net_mbps,
        last_req_rate := payload.req_rate,
        last_heartbeat := some now,
        status := if 0 < current_jobs then "busy" else "idle" }
      .ok { st with workers := st.workers.map (fun w =>
        if w.id == worker.id then worker2 else w) }

/-- worker_callbacks.worker_checklist (lines 125-150): after verification,
overwrite the session checklist with the worker-supplied items, stamp
updated_at, commit, then publish a checklist.update event. -/
def worker_checklist (hm : String → String → String)
    (pj : String → Option CallbackPayload) (now : Int) (st : SysState)
    (req : CallbackRequest) : Except ApiError SysState :=
  match verify_request hm now st req with
  | .error e => .error e
  | .ok (_worker, body) =>
    match pj body with
    | none => .error .internal
    | some payload =>
      match payload.session_id with
      | none => .error (.badRequest "Missing session_id")
      | some sid =>
        match getSession st sid with
        | none => .error (.notFound "Session not found")
        | some session =>
          let items := payload.items.getD []
          let session2 := { session with checklist := items, updated_at := some now }
          let sessions2 := st.sessions.map (fun s => if s.id == session.id then session2 else s)
          let ev : Nat × EventMsg :=
            (session.id, { event := "checklist.update", data := .checklist items })
          .ok { st with sessions := sessions2, events := st.events ++ [ev] }

/-- worker_callbacks.worker_result (lines 153-232): after verification,
branch on the payload status.  "ready" attaches the connection fields;
"failed" marks the session failed and, when the session has an owning
user and a resolvable product, refunds the product price through
WalletService.adjust_balance tagged vps.refund with the session id as
reference; any other status is a 400 with no mutation.  Then the worker's
in-flight counter is decremented (floor zero), busy/idle recomputed, the
heartbeat stamped, everything committed, and status.update plus
ready/failed events published. -/
def worker_result (hm : String → String → String)
    (pj : String → Option CallbackPayload) (now : Int) (st : SysState)
    (req : CallbackRequest) : Except ApiError SysState :=
  match verify_request hm now st req with
  | .error e => .error e
  | .ok (worker, body) =>
    match pj body with
    | none => .error .internal
    | some payload =>
      match payload.session_id with
      | none => .error (.badRequest "Missing session_id")
      | some sid =>
        match getSession st sid with
        | none => .error (.notFound "Session not found")
        | some session =>
          let user : Option UserRec :=
            match session.user_id with
            | some uid => getUser st uid
            | none => none
          let branch : Except ApiError (SessionRec × SysState) :=
            if payload.status == some "ready" then
              .ok ({ session with
                status := "ready",
                rdp_host := payload.rdp_host,
                rdp_port := payload.rdp_port,
                rdp_user := payload.rdp_user,
                rdp_password := payload.rdp_password,
                log_url := payload.log_url,
                updated_at := some now }, st)
            else if payload.status == some "failed" then
              let session2 := { session with status := "failed", updated_at := some now }
              match user, session.product_id.bind (getProduct st) with
              | some u, some product =>
                match adjust_balance st u product.price_coins "vps.refund" (some session.id) with
                | .ok r => .ok (session2, r.1)
                | .error e => .error e
              | _, _ => .ok (session2, st)
            else
              .error (.badRequest "Invalid status")
          match branch with
          | .error e => .error e
          | .ok (session2, st2) =>
            let cj := if worker.current_jobs != 0
              then max (worker.current_jobs - 1) 0 else worker.current_jobs
            let worker2 := { worker with
              current_jobs := cj,
              status := if cj != 0 then "busy" else "idle",
              last_heartbeat := some now }
            let workers3 := st2.workers.map (fun w => if w.id == worker.id then worker2 else w)
            let sessions3 := st2.sessions.map (fun s => if s.id == session.id then session2 else s)
            let st3 := { st2 with workers := workers3, sessions := sessions3 }
            let evStatus : Nat × EventMsg :=
              (session2.id, { event := "status.update", data := .statusUpdate session2.status })
            let st4 := { st3 with events := st3.events ++ [evStatus] }
            if session2.status == "ready" then
              let readyData : EventData := .ready session2.rdp_host session2.rdp_port
                session2.rdp_user session2.rdp_password session2.log_url
              let evReady : Nat × EventMsg := (session2.id, { event := "ready", data := readyData })
              .ok { st4 with events := st4.events ++ [evReady] }
            else if session2.status == "failed" then
              let failedData : EventData := .failed (payload.message.getD "Worker reported failure")
              let evFailed : Nat × EventMsg := (session2.id, { event := "failed", data := failedData })
              .ok { st4 with events := st4.events ++ [evFailed] }
            else
              .ok st4

/-- The durable state after a unit of work: a raised HTTPException makes
deps.get_db close the session without commit, rolling everything back. -/
def commitResult (st : SysState) (r : Except ApiError SysState) : SysState :=
  match r with
  | .ok st2 => st2
  | .error _ => st

/-- The body of POST /workers/register (worker_callbacks.worker_register):
token_id, admin_token, base_url and the optional display name. -/
structure RegisterPayload where
  token_id : Option String
  admin_token : Option String
  base_url : Option String
  name : Option String
deriving Repr, DecidableEq

/-- Python truthiness of an optional string field: absent or empty. -/
def strFalsy : Option String → Bool
  | none => true
  | some s => s == ""

/-- str.rstrip of trailing slash characters, used to normalize base URLs. -/
def rstrip_slash (s : String) : String :=
  String.mk ((s.data.reverse.dropWhile (fun c => c == '/')).reverse)

/-- worker_callbacks.worker_register (lines 34-70): validate the payload,
resolve the admin token, reject when revoked or when the presented plain
token does not match the stored secret, then upsert the worker keyed by
(token_id, normalized base_url).  Both the update and the create path
persist the worker with status "idle"; a created worker gets the column
defaults current_jobs = 0 and max_sessions = 3.  newWorkerId models the
UUID the database generates for a created row. -/
def worker_register (now : Int) (newWorkerId : Nat) (st : SysState)
    (payload : RegisterPayload) : Except ApiError (SysState × Nat) :=
  if strFalsy payload.token_id || strFalsy payload.admin_token || strFalsy payload.base_url then
    .error (.badRequest "Missing registration fields")
  else
    match payload.token_id, payload.admin_token, payload.base_url with
    | some token_idS, some admin_token_plain, some base_urlS =>
      match parse_uuid token_idS with
      | none => .error (.badRequest "Invalid token id")
      | some token_uuid =>
        match getToken st token_uuid with
        | none => .error (.unauthorized "Token unavailable")
        | some token =>
          if token.revoked then
            .error (.unauthorized "Token unavailable")
          else if token.secret != admin_token_plain then
            .error (.unauthorized "Token mismatch")
          else
            let normalized_url := rstrip_slash base_urlS
            match st.workers.find? (fun w =>
                w.token_id == some token_uuid && w.base_url == normalized_url) with
            | some existing =>
              let name2 := if strFalsy payload.name then existing.name else payload.name
              let worker2 := { existing with
                name := name2,
                base_url := normalized_url,
                status := "idle",
                last_heartbeat := some now }
              let workers2 := st.workers.map (fun w => if w.id == existing.id then worker2 else w)
              .ok ({ st with workers := workers2 }, existing.id)
            | none =>
              let worker : WorkerRec :=
                { id := newWorkerId, name := payload.name, base_url := normalized_url,
                  token_id := some token_uuid, status := "idle", current_jobs := 0,
                  max_sessions := 3, last_heartbeat := none, last_net_mbps := none,
                  last_req_rate := none }
              .ok ({ st with workers := st.workers ++ [worker] }, newWorkerId)
    | _, _, _ => .error (.badRequest "Missing registration fields")

/-- vps_products.VpsProductService._resolve_workers (lines 24-43): look up
the requested worker ids, reject when any are unknown, reject when any of
the found workers has a status other than "active", else return them.
The HTTP 400 details carry the offending names; the detail strings here
keep only the fixed prefix. -/
def resolve_workers (st : SysState) (worker_ids : List Nat) :
    Except ApiError (List WorkerRec) :=
  if worker_ids.isEmpty then
    .ok []
  else
    let workers := st.workers.filter (fun w => worker_ids.contains w.id)
    let found_ids := workers.map (fun w => w.id)
    let missing := worker_ids.filter (fun wid => !(found_ids.contains wid))
    if !missing.isEmpty then
      .error (.badRequest "Unknown worker ids")
    else
      let inactive := workers.filter (fun w => w.status != "active")
      if !inactive.isEmpty then
        .error (.badRequest "Inactive workers")
      else
        .ok workers

def ACTIVE_STATUSES : List String := ["pending", "provisioning", "ready"]

/-- worker_registry.WorkerRegistryService._active_session_counts (lines
28-37) for a single worker: the number of sessions assigned to it whose
status is pending, provisioning or ready, computed from session state.
The source's grouped query returns a dict and callers read
counts.get(worker_id, 0), which equals this count. -/
def active_session_count (st : SysState) (wid : Nat) : Nat :=
  (st.sessions.filter (fun s =>
    s.worker_id == some wid && ACTIVE_STATUSES.contains s.status)).length

/-- Errors of the spec-modelled purchase pipeline (spec section 7). -/
inductive PurchaseError where
  | insufficientFunds
  | noCapacity
  | notFound
  | dispatchFailed
deriving Repr, DecidableEq

/-- Modelled from the spec: the dispatch-time worker selection policy of
section 4.1 — src/ lacks app/services/vps.py, where VpsService performs
selection; only WorkerRegistryService._active_session_counts (embedded
above) is in src/.  Among the product's assigned workers with status
"active" and activeSessionCount < max_sessions, choose the least-loaded;
fail with NoCapacity when none qualify. -/
def select_worker (st : SysState) (product : ProductRec) :
    Except PurchaseError WorkerRec :=
  let assigned := st.workers.filter (fun w => product.worker_ids.contains w.id)
  let eligible := assigned.filter (fun w =>
    w.status == "active" && decide ((active_session_count st w.id : Int) < w.max_sessions))
  match eligible with
  | [] => .error .noCapacity
  | w :: rest =>
    .ok (rest.foldl (fun best x =>
      if active_session_count st x.id < active_session_count st best.id then x else best) w)

/-- Modelled from the spec: VpsService.purchase_and_create — src/ lacks
app/services/vps.py; only its test (tests/test_services.py) and callers
are present.  Spec section 4.4 Purchase: when a session already exists
for (user, idempotency key) return it unchanged with no new debit and no
new dispatch; otherwise atomically debit product.price from the wallet
(InsufficientFunds aborts with nothing created), select a worker, dispatch
the job, and persist the session as provisioning with the idempotency key.
A dispatch failure aborts the unit of work, so the debit is compensated
and no session is persisted (the first of the two policies the spec
allows).  newSessionId models the generated session id; dispatchOk the
outcome of the outbound HTTP dispatch. -/
def purchase_and_create (dispatchOk : Bool) (st : SysState) (userId : Nat)
    (productId : Nat) (key : String) (newSessionId : Nat) :
    Except PurchaseError (SysState × Nat × Bool) :=
  match st.sessions.find? (fun s =>
      s.user_id == some userId && s.idempotency_key == some key) with
  | some existing => .ok (st, existing.id, false)
  | none =>
    match getUser st userId, getProduct st productId with
    | some user, some product =>
      match adjust_balance st user (-product.price_coins) "vps.purchase" none with
      | .error _ => .error .insufficientFunds
      | .ok r =>
        match select_worker r.1 product with
        | .error e => .error e
        | .ok worker =>
          if dispatchOk then
            let session : SessionRec :=
              { id := newSessionId, user_id := some userId, product_id := some productId,
                worker_id := some worker.id, status := "provisioning", checklist := [],
                rdp_host := none, rdp_port := none, rdp_user := none, rdp_password := none,
                log_url := none, idempotency_key := some key, updated_at := none }
            .ok ({ r.1 with
                    sessions := session :: r.1.sessions,
                    dispatches := r.1.dispatches ++ [newSessionId] }, newSessionId, true)
          else
            .error .dispatchFailed
    | _, _ => .error .notFound

/-- An asyncio.Queue as used by the event bus: maxsize ≤ 0 means an
unbounded queue (asyncio semantics); items in FIFO order. -/
structure AQueue (α : Type) where
  maxsize : Int
  items : List α
deriving Repr, DecidableEq

/-- asyncio.Queue.full(): true when the queue is bounded and at or over
its capacity. -/
def AQueue.isFull {α : Type} (q : AQueue α) : Bool :=
  decide (0 < q.maxsize) && decide (q.maxsize ≤ (q.items.length : Int))

/-- asyncio.Queue.put_nowait: enqueue, or raise QueueFull (none). -/
def AQueue.put_nowait {α : Type} (q : AQueue α) (x : α) : Option (AQueue α) :=
  if q.isFull then none else some { q with items := q.items ++ [x] }

/-- asyncio.Queue.get_nowait: dequeue the oldest, or raise QueueEmpty. -/
def AQueue.get_nowait {α : Type} (q : AQueue α) : Option (α × AQueue α) :=
  match q.items with
  | [] => none
  | x :: rest => some (x, { q with items := rest })

/-- The per-queue body of SessionEventBus.publish (event_bus.py lines
21-31): try put_nowait; on QueueFull drop the oldest and retry, and on
any exception in that recovery keep whatever state the queue reached
(the bare continue).  Total: publish never raises to the publisher. -/
def publishToQueue {α : Type} (q : AQueue α) (item : α) : AQueue α :=
  match q.put_nowait item with
  | some q2 => q2
  | none =>
    match q.get_nowait with
    | none => q
    | some (_, q2) =>
      match q2.put_nowait item with
      | some q3 => q3
      | none => q2

/-- The in-memory subscriber map of SessionEventBus, keyed by session id.
Each published event is delivered as its own copy per queue; with value
semantics the copy is the value itself. -/
structure EventBusState (α : Type) where
  subscribers : List (Nat × List (AQueue α))
deriving Repr, DecidableEq

/-- SessionEventBus.publish (lines 16-31): deliver to every queue
currently subscribed for the session id. -/
def busPublish {α : Type} (bus : EventBusState α) (sid : Nat) (event : α) :
    EventBusState α :=
  { subscribers := bus.subscribers.map (fun p =>
      if p.1 == sid then (p.1, p.2.map (fun q => publishToQueue q event)) else p) }

/-- SessionEventBus.subscribe (lines 33-37): register a fresh bounded
queue of capacity max_queue_items for the session (the handler default is
100). -/
def busSubscribe {α : Type} (bus : EventBusState α) (sid : Nat)
    (max_queue_items : Int) : EventBusState α × AQueue α :=
  let queue : AQueue α := { maxsize := max_queue_items, items := [] }
  let bus2 : EventBusState α :=
    match bus.subscribers.find? (fun p => p.1 == sid) with
    | some _ => { subscribers := bus.subscribers.map (fun p =>
        if p.1 == sid then (p.1, queue :: p.2) else p) }
    | none => { subscribers := bus.subscribers ++ [(sid, [queue])] }
  (bus2, queue)

theorem publishToQueue_maxsize {α : Type} (q : AQueue α) (e : α) :
    (publishToQueue q e).maxsize = q.maxsize := by
  unfold publishToQueue AQueue.put_nowait AQueue.get_nowait
  by_cases hfull : q.isFull
  · simp only [hfull, if_true]
    cases hitems : q.items with
    | nil => rfl
    | cons x rest =>
      by_cases hfull2 : ({ q with items := rest } : AQueue α).isFull
      · simp [hfull2]
      · simp [hfull2]
  · simp [hfull]

theorem publishToQueue_not_full {α : Type} (q : AQueue α) (e : α)
    (hfull : q.isFull = false) :
    (publishToQueue q e).items = q.items ++ [e] := by
  simp [publishToQueue, AQueue.put_nowait, hfull]

theorem publishToQueue_full {α : Type} (q : AQueue α) (e : α)
    (hcap : 1 ≤ q.maxsize) (hlen : (q.items.length : Int) ≤ q.maxsize)
    (hfull : q.isFull = true) :
    (publishToQueue q e).items = q.items.tail ++ [e] := by
  have hineq : 0 < q.maxsize ∧ q.maxsize ≤ (q.items.length : Int) := by
    simpa [AQueue.isFull] using hfull
  cases hitems : q.items with
  | nil =>
    exfalso
    rw [hitems] at hineq
    simp at hineq
    omega
  | cons x rest =>
    have hrest : ¬ (q.maxsize ≤ (rest.length : Int)) := by
      rw [hitems] at hineq hlen
      simp at hineq hlen
      omega
    have hfull2 : ({ q with items := rest } : AQueue α).isFull = false := by
      simp [AQueue.isFull, hrest]
    simp [publishToQueue, AQueue.put_nowait, AQueue.get_nowait, hfull, hitems, hfull2]

theorem publishToQueue_length {α : Type} (q : AQueue α) (e : α)
    (hcap : 1 ≤ q.maxsize) (hlen : (q.items.length : Int) ≤ q.maxsize) :
    ((publishToQueue q e).items.length : Int) ≤ q.maxsize := by
  by_cases hfull : q.isFull = true
  · rw [publishToQueue_full q e hcap hlen hfull]
    cases hitems : q.items with
    | nil =>
      have : 0 < q.maxsize ∧ q.maxsize ≤ (q.items.length : Int) := by
        simpa [AQueue.isFull] using hfull
      rw [hitems] at this
      simp at this
      omega
    | cons x rest =>
      rw [hitems] at hlen
      simp at hlen ⊢
      omega
  · have hfull2 : q.isFull = false := by simpa using hfull
    rw [publishToQueue_not_full q e hfull2]
    have : ¬ (0 < q.maxsize ∧ q.maxsize ≤ (q.items.length : Int)) := by
      intro hc
      rw [(by simpa [AQueue.isFull] using hc : q.isFull = true)] at hfull2
      exact absurd hfull2 (by simp)
    simp only [List.length_append, List.length_cons, List.length_nil]
    push_cast
    omega

theorem publishToQueue_getLast {α : Type} (q : AQueue α) (e : α)
    (hcap : 1 ≤ q.maxsize) (hlen : (q.items.length : Int) ≤ q.maxsize) :
    (publishToQueue q e).items.getLast? = some e := by
  by_cases hfull : q.isFull = true
  · rw [publishToQueue_full q e hcap hlen hfull, List.getLast?_append_cons]
    rfl
  · rw [publishToQueue_not_full q e (by simpa using hfull), List.getLast?_append_cons]
    rfl

/-- C8 counterexample: the claim quantifies over every capacity, but
SessionEventBus.subscribe with max_queue_items = 0 creates
asyncio.Queue(maxsize=0), which asyncio treats as unbounded: a single
publish leaves 1 > 0 items in the queue, so the queue does not stay
within max_queue_items. -/
theorem event_queue_bound_counterexample :
    (busSubscribe ({ subscribers := [] } : EventBusState Nat) 7 0).2
        = ({ maxsize := 0, items := [] } : AQueue Nat)
    ∧ (publishToQueue ({ maxsize := 0, items := [] } : AQueue Nat) 5).items = [5]
    ∧ ¬ (((publishToQueue ({ maxsize := 0, items := [] } : AQueue Nat) 5).items.length : Int)
          ≤ 0) := by
  refine ⟨rfl, rfl, by decide⟩

/-- C8 (amended): for every subscriber queue created with capacity
max_queue_items ≥ 1 and currently within that capacity, publish — a total
function, so it never blocks or raises to the publisher — keeps the queue
within max_queue_items; when it encounters a full queue it evicts exactly
the oldest queued item and enqueues the new event, otherwise it appends
the event; the new event ends up last in the queue; and at bus level the
new event is in every queue subscribed for that session after publish.
(asyncio.Queue treats maxsize ≤ 0 as unbounded, so the capacity bound
fails for max_queue_items = 0; subscribe's handler-side default is 100.) -/
theorem event_bus_publish_bounded {α : Type} (q : AQueue α) (e : α)
    (hcap : 1 ≤ q.maxsize) (hlen : (q.items.length : Int) ≤ q.maxsize) :
    ((publishToQueue q e).items.length : Int) ≤ q.maxsize
    ∧ (publishToQueue q e).maxsize = q.maxsize
    ∧ (q.isFull = true → (publishToQueue q e).items = q.items.tail ++ [e])
    ∧ (q.isFull = false → (publishToQueue q e).items = q.items ++ [e])
    ∧ (publishToQueue q e).items.getLast? = some e
    ∧ ∀ (bus : EventBusState α) (sid : Nat),
        (∀ p ∈ bus.subscribers, p.1 = sid → ∀ qq ∈ p.2,
          1 ≤ qq.maxsize ∧ (qq.items.length : Int) ≤ qq.maxsize) →
        ∀ p2 ∈ (busPublish bus sid e).subscribers, p2.1 = sid →
          ∀ qq ∈ p2.2, qq.items.getLast? = some e := by
  refine ⟨publishToQueue_length q e hcap hlen, publishToQueue_maxsize q e,
    fun hf => publishToQueue_full q e hcap hlen hf,
    fun hf => publishToQueue_not_full q e hf,
    publishToQueue_getLast q e hcap hlen, ?_⟩
  intro bus sid hinv p2 hp2 hp2sid qq hqq
  obtain ⟨p, hp, hpeq⟩ := List.mem_map.mp hp2
  by_cases hps : p.1 = sid
  · rw [if_pos (by simp [hps])] at hpeq
    subst hpeq
    obtain ⟨q0, hq0, hq0eq⟩ := List.mem_map.mp hqq
    obtain ⟨hq0cap, hq0len⟩ := hinv p hp hps q0 hq0
    rw [← hq0eq]
    exact publishToQueue_getLast q0 e hq0cap hq0len
  · rw [if_neg (by simp [hps])] at hpeq
    subst hpeq
    exact absurd hp2sid hps

theorem event_bus_publish_bounded_witness :
    (1 : Int) ≤ 2 ∧ ((([0] : List Nat).length : Int) ≤ 2)
    ∧ (publishToQueue ({ maxsize := 2, items := [0] } : AQueue Nat) 7).items.getLast?
        = some 7 :=
  ⟨by decide, by decide,
    (event_bus_publish_bounded ({ maxsize := 2, items := [0] } : AQueue Nat) 7
      (by decide) (by decide)).2.2.2.2.1⟩


theorem foldl_pick_mem {α : Type} (f : α → α → α)
    (hf : ∀ a b, f a b = a ∨ f a b = b) (l : List α) :
    ∀ a, l.foldl f a ∈ a :: l := by
  induction l with
  | nil => intro a; simp
  | cons x t ih =>
    intro a
    rw [List.foldl_cons]
    rcases hf a x with h | h
    · rw [h]
      rcases List.mem_cons.mp (ih a) with h2 | h2
      · exact List.mem_cons.mpr (Or.inl h2)
      · exact List.mem_cons.mpr (Or.inr (List.mem_cons.mpr (Or.inr h2)))
    · rw [h]
      rcases List.mem_cons.mp (ih x) with h2 | h2
      · exact List.mem_cons.mpr (Or.inr (List.mem_cons.mpr (Or.inl h2)))
      · exact List.mem_cons.mpr (Or.inr (List.mem_cons.mpr (Or.inr h2)))

/-- C7: worker selection for dispatch (modelled from the spec, since
VpsService is not under src/; the active-session count is embedded from
WorkerRegistryService._active_session_counts) never picks a worker whose
active-session count — sessions in pending/provisioning/ready, computed
from session state rather than the self-reported counter — has reached
its max_sessions: any selected worker is one of the product's assigned
workers, has status "active" and strictly spare capacity; and when no
assigned worker is active with spare capacity, selection fails with
NoCapacity. -/
theorem select_worker_capacity (st : SysState) (product : ProductRec) :
    (∀ w, select_worker st product = .ok w →
        w ∈ st.workers ∧ product.worker_ids.contains w.id = true
          ∧ w.status = "active"
          ∧ (active_session_count st w.id : Int) < w.max_sessions)
    ∧ ((∀ w ∈ st.workers, product.worker_ids.contains w.id = true →
          w.status = "active" →
          (w.max_sessions : Int) ≤ (active_session_count st w.id : Int)) →
        select_worker st product = .error .noCapacity) := by
  constructor
  · intro w h
    simp only [select_worker] at h
    cases helig : (st.workers.filter (fun w => product.worker_ids.contains w.id)).filter
        (fun w => w.status == "active"
          && decide ((active_session_count st w.id : Int) < w.max_sessions)) with
    | nil => rw [helig] at h; exact absurd h (by simp)
    | cons a rest =>
      rw [helig] at h
      have hw : w = rest.foldl (fun best x =>
          if active_session_count st x.id < active_session_count st best.id
          then x else best) a := by
        simpa using h.symm
      have hmem : w ∈ a :: rest := by
        rw [hw]
        refine foldl_pick_mem _ (fun p q => ?_) rest a
        by_cases hc : active_session_count st q.id < active_session_count st p.id
        · exact Or.inr (if_pos hc)
        · exact Or.inl (if_neg hc)
      rw [← helig] at hmem
      have h1 := List.mem_filter.mp hmem
      have h2 := List.mem_filter.mp h1.1
      have h3 := h1.2
      simp only [Bool.and_eq_true, beq_iff_eq, decide_eq_true_eq] at h3
      exact ⟨h2.1, h2.2, h3.1, h3.2⟩
  · intro hnone
    simp only [select_worker]
    have helig : (st.workers.filter (fun w => product.worker_ids.contains w.id)).filter
        (fun w => w.status == "active"
          && decide ((active_session_count st w.id : Int) < w.max_sessions)) = [] := by
      rw [List.filter_eq_nil_iff]
      intro w hw
      have h2 := List.mem_filter.mp hw
      simp only [Bool.and_eq_true, beq_iff_eq, decide_eq_true_eq, not_and]
      intro hactive
      have := hnone w h2.1 h2.2 hactive
      omega
    rw [helig]

def fullWorker : WorkerRec :=
  { id := 2
    name := some "w"
    base_url := "http://w"
    token_id := none
    status := "active"
    current_jobs := 0
    max_sessions := 0
    last_heartbeat := none
    last_net_mbps := none
    last_req_rate := none }

def capacityDemoState : SysState :=
  { users := []
    wallets := []
    ledger := []
    tokens := []
    workers := [fullWorker]
    products := []
    sessions := []
    events := []
    dispatches := [] }

def capacityDemoProduct : ProductRec :=
  { id := 5
    name := "basic"
    price_coins := 25
    provision_action := 1
    is_active := true
    worker_ids := [2] }

theorem select_worker_capacity_witness :
    select_worker capacityDemoState capacityDemoProduct = .error .noCapacity :=
  (select_worker_capacity capacityDemoState capacityDemoProduct).2 (by decide)

theorem resolve_workers_active (st : SysState) (wids : List Nat) (ws : List WorkerRec)
    (h : resolve_workers st wids = .ok ws) :
    ∀ w ∈ ws, w ∈ st.workers ∧ w.status = "active" := by
  intro w hw
  simp only [resolve_workers] at h
  by_cases h1 : wids.isEmpty
  · rw [if_pos h1] at h
    have hws : ws = [] := (Except.ok.inj h).symm
    rw [hws] at hw
    exact absurd hw (by simp)
  · rw [if_neg h1] at h
    by_cases h2 : !(wids.filter (fun wid =>
        !((st.workers.filter (fun w => wids.contains w.id)).map (fun w => w.id)).contains wid)).isEmpty
    · rw [if_pos h2] at h
      exact absurd h (by simp)
    · rw [if_neg h2] at h
      by_cases h3 : !((st.workers.filter (fun w => wids.contains w.id)).filter
          (fun w => w.status != "active")).isEmpty
      · rw [if_pos h3] at h
        exact absurd h (by simp)
      · rw [if_neg h3] at h
        have hws : ws = st.workers.filter (fun w => wids.contains w.id) :=
          (Except.ok.inj h).symm
        rw [hws] at hw
        have h4 := List.mem_filter.mp hw
        refine ⟨h4.1, ?_⟩
        have hinact : (st.workers.filter (fun w => wids.contains w.id)).filter
            (fun w => w.status != "active") = [] := by
          rw [← List.isEmpty_iff]
          simpa using h3
        have h5 := List.filter_eq_nil_iff.mp hinact w hw
        simpa using h5

/-- C10: every worker created or updated through POST /workers/register is
persisted with status "idle", and product worker-pool assignment
(_resolve_workers) succeeds only when every requested worker has status
"active"; hence a worker registered through this endpoint is never part of
a successfully resolved product pool (and so never reachable by dispatch
selection) until an administrative update changes its status. -/
theorem register_idle_never_in_pool (now : Int) (newId : Nat) (st st2 : SysState)
    (payload : RegisterPayload) (wid : Nat)
    (hfresh : ∀ w ∈ st.workers, w.id ≠ newId)
    (hreg : worker_register now newId st payload = .ok (st2, wid)) :
    (∃ w ∈ st2.workers, w.id = wid ∧ w.status = "idle")
    ∧ ∀ wids ws, resolve_workers st2 wids = .ok ws → ∀ w ∈ ws, w.id ≠ wid := by
  simp only [worker_register] at hreg
  by_cases hfal : (strFalsy payload.token_id || strFalsy payload.admin_token
      || strFalsy payload.base_url) = true
  · rw [if_pos hfal] at hreg
    exact absurd hreg (by simp)
  · rw [if_neg hfal] at hreg
    cases htok : payload.token_id with
    | none => rw [htok] at hreg; exact absurd hreg (by simp)
    | some token_idS =>
      cases hadm : payload.admin_token with
      | none => rw [htok, hadm] at hreg; exact absurd hreg (by simp)
      | some admin_token_plain =>
        cases hurl : payload.base_url with
        | none => rw [htok, hadm, hurl] at hreg; exact absurd hreg (by simp)
        | some base_urlS =>
          rw [htok, hadm, hurl] at hreg
          simp only [] at hreg
          cases hpu : parse_uuid token_idS with
          | none => rw [hpu] at hreg; exact absurd hreg (by simp)
          | some token_uuid =>
            rw [hpu] at hreg
            simp only [] at hreg
            cases htk : getToken st token_uuid with
            | none => rw [htk] at hreg; exact absurd hreg (by simp)
            | some token =>
              rw [htk] at hreg
              simp only [] at hreg
              by_cases hrev : token.revoked = true
              · rw [if_pos hrev] at hreg
                exact absurd hreg (by simp)
              · rw [if_neg hrev] at hreg
                by_cases hsec : (token.secret != admin_token_plain) = true
                · rw [if_pos hsec] at hreg
                  exact absurd hreg (by simp)
                · rw [if_neg hsec] at hreg
                  cases hfind : st.workers.find? (fun w =>
                      w.token_id == some token_uuid
                        && w.base_url == rstrip_slash base_urlS) with
                  | some existing =>
                    rw [hfind] at hreg
                    simp only [] at hreg
                    have hinj := Except.ok.inj hreg
                    have hst2 := (congrArg Prod.fst hinj).symm
                    have hwid := (congrArg Prod.snd hinj).symm
                    simp only [] at hst2 hwid
                    constructor
                    · rw [hst2, hwid]
                      refine ⟨_, List.mem_map.mpr
                        ⟨existing, List.mem_of_find?_eq_some hfind, rfl⟩, ?_, ?_⟩
                      · simp
                      · simp
                    · intro wids ws hres w hw
                      obtain ⟨hwmem, hact⟩ := resolve_workers_active st2 wids ws hres w hw
                      rw [hst2] at hwmem
                      rcases mem_map_ite (fun w : WorkerRec => w.id == existing.id) _
                          st.workers w hwmem with ⟨a, _, _, hxa⟩ | ⟨_, hxp⟩
                      · rw [hxa] at hact
                        exact absurd hact (by simp)
                      · rw [hwid]
                        intro hcontra
                        rw [hcontra] at hxp
                        simp at hxp
                  | none =>
                    rw [hfind] at hreg
                    simp only [] at hreg
                    have hinj := Except.ok.inj hreg
                    have hst2 := (congrArg Prod.fst hinj).symm
                    have hwid := (congrArg Prod.snd hinj).symm
                    simp only [] at hst2 hwid
                    constructor
                    · rw [hst2, hwid]
                      exact ⟨_, List.mem_append_right _ (List.mem_singleton_self _), rfl, rfl⟩
                    · intro wids ws hres w hw
                      obtain ⟨hwmem, hact⟩ := resolve_workers_active st2 wids ws hres w hw
                      rw [hst2] at hwmem
                      rcases List.mem_append.mp hwmem with hmem | hmem
                      · rw [hwid]
                        exact hfresh w hmem
                      · rw [List.mem_singleton] at hmem
                        rw [hmem] at hact
                        exact absurd hact (by simp)

def regDemoState : SysState :=
  { users := []
    wallets := []
    ledger := []
    tokens := [{ id := 3, secret := "sec", revoked := false }]
    workers := []
    products := []
    sessions := []
    events := []
    dispatches := [] }

def regDemoPayload : RegisterPayload :=
  { token_id := some "3"
    admin_token := some "sec"
    base_url := some "http://w/"
    name := some "w" }

def regDemoAfter : SysState :=
  { users := []
    wallets := []
    ledger := []
    tokens := [{ id := 3, secret := "sec", revoked := false }]
    workers := [{ id := 2, name := some "w", base_url := "http://w", token_id := some 3,
                  status := "idle", current_jobs := 0, max_sessions := 3,
                  last_heartbeat := none, last_net_mbps := none, last_req_rate := none }]
    products := []
    sessions := []
    events := []
    dispatches := [] }

theorem register_idle_never_in_pool_witness :
    (∃ w ∈ regDemoAfter.workers, w.id = 2 ∧ w.status = "idle")
    ∧ ∀ wids ws, resolve_workers regDemoAfter wids = .ok ws → ∀ w ∈ ws, w.id ≠ 2 :=
  register_idle_never_in_pool 0 2 regDemoState regDemoAfter regDemoPayload 2
    (by decide) (by decide)

theorem verify_request_reduce (hm : String → String → String) (now : Int)
    (st : SysState) (req : CallbackRequest) (widS tsS sigS : String) (wid : Nat)
    (worker : WorkerRec) (tid : Nat) (token : AdminTokenRec) (ts : Int)
    (h1 : req.worker_id_header = some widS) (h2 : req.timestamp_header = some tsS)
    (h3 : req.signature_header = some sigS)
    (h4 : widS ≠ "") (h5 : tsS ≠ "") (h6 : sigS ≠ "")
    (h7 : parse_uuid widS = some wid) (h8 : getWorker st wid = some worker)
    (h9 : worker.token_id = some tid) (h10 : getToken st tid = some token)
    (h11 : token.revoked = false) (h12 : parse_timestamp tsS = .ok ts) :
    verify_request hm now st req =
      if CLOCK_SKEW_SECONDS < (now - ts).natAbs then
        .error (.unauthorized "Clock skew too large")
      else if verify_worker_signature hm token.secret req.body tsS sigS then
        .ok (worker, req.body)
      else
        .error (.unauthorized "Invalid signature") := by
  obtain ⟨wh, th, sh, body⟩ := req
  have h1a : wh = some widS := h1
  have h2a : th = some tsS := h2
  have h3a : sh = some sigS := h3
  subst h1a h2a h3a
  simp only [verify_request]
  rw [if_neg (by simp [h4, h5, h6])]
  rw [h7]
  simp only []
  rw [h8]
  simp only []
  rw [h9]
  simp only []
  rw [h10]
  simp only []
  rw [if_neg (by simp [h11])]
  rw [h12]

/-- C4: an inbound worker callback is accepted by _verify_request exactly
when all three headers are present and non-empty, the worker id header
resolves to a known worker holding a token reference whose admin token
exists and is not revoked, the timestamp parses and satisfies
|now - timestamp| ≤ 300 seconds, and the signature header equals the hex
HMAC-SHA256 of the raw body concatenated with the timestamp string under
that worker's secret (the code compares with the constant-time
hmac.compare_digest, whose value is equality).  Moreover a parseable
timestamp outside the window is rejected Unauthorized "Clock skew too
large", and a wrong signature with everything else valid is rejected
Unauthorized "Invalid signature". -/
theorem verify_request_accepts_iff (hm : String → String → String) (now : Int)
    (st : SysState) (req : CallbackRequest) :
    ((∃ res, verify_request hm now st req = .ok res) ↔
      (∃ widS tsS sigS wid worker tid token ts,
        req.worker_id_header = some widS ∧ req.timestamp_header = some tsS
        ∧ req.signature_header = some sigS
        ∧ widS ≠ "" ∧ tsS ≠ "" ∧ sigS ≠ ""
        ∧ parse_uuid widS = some wid ∧ getWorker st wid = some worker
        ∧ worker.token_id = some tid ∧ getToken st tid = some token
        ∧ token.revoked = false
        ∧ parse_timestamp tsS = .ok ts ∧ (now - ts).natAbs ≤ CLOCK_SKEW_SECONDS
        ∧ sigS = compute_worker_signature hm token.secret req.body tsS))
    ∧ (∀ widS tsS sigS wid worker tid token ts,
        req.worker_id_header = some widS → req.timestamp_header = some tsS →
        req.signature_header = some sigS →
        widS ≠ "" → tsS ≠ "" → sigS ≠ "" →
        parse_uuid widS = some wid → getWorker st wid = some worker →
        worker.token_id = some tid → getToken st tid = some token →
        token.revoked = false →
        parse_timestamp tsS = .ok ts →
        CLOCK_SKEW_SECONDS < (now - ts).natAbs →
        verify_request hm now st req = .error (.unauthorized "Clock skew too large"))
    ∧ (∀ widS tsS sigS wid worker tid token ts,
        req.worker_id_header = some widS → req.timestamp_header = some tsS →
        req.signature_header = some sigS →
        widS ≠ "" → tsS ≠ "" → sigS ≠ "" →
        parse_uuid widS = some wid → getWorker st wid = some worker →
        worker.token_id = some tid → getToken st tid = some token →
        token.revoked = false →
        parse_timestamp tsS = .ok ts →
        (now - ts).natAbs ≤ CLOCK_SKEW_SECONDS →
        sigS ≠ compute_worker_signature hm token.secret req.body tsS →
        verify_request hm now st req = .error (.unauthorized "Invalid signature")) := by
  refine ⟨⟨?_, ?_⟩, ?_, ?_⟩
  · rintro ⟨res, h⟩
    obtain ⟨wh, th, sh, body⟩ := req
    cases wh with
    | none => simp [verify_request] at h
    | some widS =>
      cases th with
      | none => simp [verify_request] at h
      | some tsS =>
        cases sh with
        | none => simp [verify_request] at h
        | some sigS =>
          simp only [verify_request] at h
          by_cases hemp : (widS == "" || tsS == "" || sigS == "") = true
          · rw [if_pos hemp] at h
            exact absurd h (by simp)
          · rw [if_neg hemp] at h
            have hne : (¬ widS = "" ∧ ¬ tsS = "") ∧ ¬ sigS = "" := by
              simpa using hemp
            cases hpu : parse_uuid widS with
            | none => rw [hpu] at h; exact absurd h (by simp)
            | some wid =>
              rw [hpu] at h
              simp only [] at h
              cases hworker : getWorker st wid with
              | none => rw [hworker] at h; exact absurd h (by simp)
              | some worker =>
                rw [hworker] at h
                simp only [] at h
                cases htid : worker.token_id with
                | none => rw [htid] at h; exact absurd h (by simp)
                | some tid =>
                  rw [htid] at h
                  simp only [] at h
                  cases htoken : getToken st tid with
                  | none => rw [htoken] at h; exact absurd h (by simp)
                  | some token =>
                    rw [htoken] at h
                    simp only [] at h
                    by_cases hrev : token.revoked = true
                    · rw [if_pos hrev] at h
                      exact absurd h (by simp)
                    · rw [if_neg hrev] at h
                      cases hts : parse_timestamp tsS with
                      | error e => rw [hts] at h; exact absurd h (by simp)
                      | ok ts =>
                        rw [hts] at h
                        simp only [] at h
                        by_cases hskew : CLOCK_SKEW_SECONDS < (now - ts).natAbs
                        · rw [if_pos hskew] at h
                          exact absurd h (by simp)
                        · rw [if_neg hskew] at h
                          by_cases hsig :
                              verify_worker_signature hm token.secret body tsS sigS = true
                          · have hsig2 : compute_worker_signature hm token.secret body tsS
                                = sigS := by
                              simpa [verify_worker_signature] using hsig
                            exact ⟨widS, tsS, sigS, wid, worker, tid, token, ts,
                              rfl, rfl, rfl, hne.1.1, hne.1.2, hne.2, hpu, hworker,
                              htid, htoken, (by simpa using hrev), hts,
                              Nat.le_of_not_lt hskew, hsig2.symm⟩
                          · rw [if_neg hsig] at h
                            exact absurd h (by simp)
  · rintro ⟨widS, tsS, sigS, wid, worker, tid, token, ts, h1, h2, h3, h4, h5, h6,
      h7, h8, h9, h10, h11, h12, h13, h14⟩
    refine ⟨(worker, req.body), ?_⟩
    rw [verify_request_reduce hm now st req widS tsS sigS wid worker tid token ts
      h1 h2 h3 h4 h5 h6 h7 h8 h9 h10 h11 h12]
    rw [if_neg (by omega : ¬ CLOCK_SKEW_SECONDS < (now - ts).natAbs)]
    rw [if_pos (by simp [verify_worker_signature, h14])]
  · intro widS tsS sigS wid worker tid token ts h1 h2 h3 h4 h5 h6 h7 h8 h9 h10
      h11 h12 hskew
    rw [verify_request_reduce hm now st req widS tsS sigS wid worker tid token ts
      h1 h2 h3 h4 h5 h6 h7 h8 h9 h10 h11 h12]
    rw [if_pos hskew]
  · intro widS tsS sigS wid worker tid token ts h1 h2 h3 h4 h5 h6 h7 h8 h9 h10
      h11 h12 h13 h14
    rw [verify_request_reduce hm now st req widS tsS sigS wid worker tid token ts
      h1 h2 h3 h4 h5 h6 h7 h8 h9 h10 h11 h12]
    rw [if_neg (by omega : ¬ CLOCK_SKEW_SECONDS < (now - ts).natAbs)]
    have hs : verify_worker_signature hm token.secret req.body tsS sigS = false := by
      simp only [verify_worker_signature]
      exact beq_eq_false_iff_ne.mpr (Ne.symm h14)
    rw [if_neg (by simp [hs])]

/-- A concrete stand-in for the HMAC-SHA256-hex primitive in witnesses. -/
def hmDemo : String → String → String :=
  fun secret message => secret ++ ":" ++ message

def verifyDemoWorker : WorkerRec :=
  { id := 2
    name := some "w"
    base_url := "http://w"
    token_id := some 3
    status := "idle"
    current_jobs := 0
    max_sessions := 3
    last_heartbeat := none
    last_net_mbps := none
    last_req_rate := none }

def verifyDemoState : SysState :=
  { users := []
    wallets := []
    ledger := []
    tokens := [{ id := 3, secret := "sec", revoked := false }]
    workers := [verifyDemoWorker]
    products := []
    sessions := []
    events := []
    dispatches := [] }

def verifyDemoReq : CallbackRequest :=
  { worker_id_header := some "2"
    timestamp_header := some "1000"
    signature_header := some (hmDemo "sec" ("RB" ++ "1000"))
    body := "RB" }

theorem verify_request_accepts_iff_witness :
    ∃ res, verify_request hmDemo 1000 verifyDemoState verifyDemoReq = .ok res :=
  (verify_request_accepts_iff hmDemo 1000 verifyDemoState verifyDemoReq).1.mpr
    ⟨"2", "1000", hmDemo "sec" ("RB" ++ "1000"), 2, verifyDemoWorker, 3,
      { id := 3, secret := "sec", revoked := false }, 1000,
      rfl, rfl, rfl, by decide, by decide, by decide, by decide, by decide,
      rfl, by decide, rfl, by decide, by decide, rfl⟩

/-- C5: any inbound callback that fails a verification check (missing,
empty or malformed headers, unknown worker id, missing or revoked secret,
stale or malformed timestamp, or a body that does not match the
signature) is rejected by every handler with the verifier's error, and a
result payload whose status is neither "ready" nor "failed" is rejected
with a 400; in all those cases the unit of work rolls back, so the
durable state — sessions, checklists, connection fields, worker counters,
wallets, published events — is the unchanged input state. -/
theorem failed_callbacks_no_mutation (hm : String → String → String)
    (pj : String → Option CallbackPayload) (now : Int) (st : SysState)
    (req : CallbackRequest) :
    (∀ e, verify_request hm now st req = .error e →
        worker_status hm pj now st req = .error e
        ∧ worker_checklist hm pj now st req = .error e
        ∧ worker_result hm pj now st req = .error e
        ∧ commitResult st (worker_status hm pj now st req) = st
        ∧ commitResult st (worker_checklist hm pj now st req) = st
        ∧ commitResult st (worker_result hm pj now st req) = st)
    ∧ (∀ worker body payload, verify_request hm now st req = .ok (worker, body) →
        pj body = some payload →
        payload.status ≠ some "ready" → payload.status ≠ some "failed" →
        (∃ e, worker_result hm pj now st req = .error e)
        ∧ commitResult st (worker_result hm pj now st req) = st) := by
  constructor
  · intro e he
    have hs : worker_status hm pj now st req = .error e := by
      simp [worker_status, he]
    have hc : worker_checklist hm pj now st req = .error e := by
      simp [worker_checklist, he]
    have hr : worker_result hm pj now st req = .error e := by
      simp [worker_result, he]
    exact ⟨hs, hc, hr, by simp [commitResult, hs], by simp [commitResult, hc],
      by simp [commitResult, hr]⟩
  · intro worker body payload hv hp hr1 hr2
    have herr : ∃ e, worker_result hm pj now st req = .error e := by
      cases hsid : payload.session_id with
      | none =>
        exact ⟨.badRequest "Missing session_id", by simp [worker_result, hv, hp, hsid]⟩
      | some sid =>
        cases hsess : getSession st sid with
        | none =>
          exact ⟨.notFound "Session not found",
            by simp [worker_result, hv, hp, hsid, hsess]⟩
        | some session =>
          exact ⟨.badRequest "Invalid status",
            by simp [worker_result, hv, hp, hsid, hsess, hr1, hr2]⟩
    obtain ⟨e, he⟩ := herr
    exact ⟨⟨e, he⟩, by simp [commitResult, he]⟩

def pjNone : String → Option CallbackPayload := fun _ => none

def headerlessReq : CallbackRequest :=
  { worker_id_header := none
    timestamp_header := none
    signature_header := none
    body := "RB" }

theorem failed_callbacks_no_mutation_witness :
    worker_result hmDemo pjNone 1000 verifyDemoState headerlessReq
      = .error (.unauthorized "Missing worker signature headers")
    ∧ commitResult verifyDemoState
        (worker_result hmDemo pjNone 1000 verifyDemoState headerlessReq)
      = verifyDemoState :=
  have h := (failed_callbacks_no_mutation hmDemo pjNone 1000 verifyDemoState
    headerlessReq).1 (.unauthorized "Missing worker signature headers") (by rfl)
  ⟨h.2.2.1, h.2.2.2.2.2⟩

theorem worker_result_failed_eq (hm : String → String → String)
    (pj : String → Option CallbackPayload) (now : Int) (st : SysState)
    (req : CallbackRequest) (worker : WorkerRec) (body : String)
    (payload : CallbackPayload) (sid : Nat) (session : SessionRec)
    (uid : Nat) (u : UserRec) (pid : Nat) (product : ProductRec)
    (stA : SysState) (bal : Int)
    (hv : verify_request hm now st req = .ok (worker, body))
    (hp : pj body = some payload)
    (hsid : payload.session_id = some sid)
    (hs : getSession st sid = some session)
    (hstat : payload.status = some "failed")
    (huid : session.user_id = some uid)
    (hu : getUser st uid = some u)
    (hpid : session.product_id = some pid)
    (hprod : getProduct st pid = some product)
    (hadj : adjust_balance st u product.price_coins "vps.refund" (some session.id)
      = .ok (stA, bal)) :
    worker_result hm pj now st req = .ok
      { stA with
          workers := stA.workers.map (fun w =>
            if w.id == worker.id then
              { worker with
                  current_jobs := if worker.current_jobs != 0
                    then max (worker.current_jobs - 1) 0 else worker.current_jobs,
                  status := if (if worker.current_jobs != 0
                    then max (worker.current_jobs - 1) 0 else worker.current_jobs) != 0
                    then "busy" else "idle",
                  last_heartbeat := some now }
            else w),
          sessions := stA.sessions.map (fun s =>
            if s.id == session.id then
              { session with status := "failed", updated_at := some now }
            else s),
          events := stA.events
            ++ [(session.id, { event := "status.update", data := .statusUpdate "failed" })]
            ++ [(session.id, { event := "failed", data := .failed (payload.message.getD "Worker reported failure") })] } := by
  simp [worker_result, hv, hp, hsid, hs, hstat, huid, hu, hpid, hprod, hadj]

/-- C6: for a provisioning session with a known owning user and a
resolvable product price, an authenticated result callback with status
"failed" succeeds, moves the session to failed, increases the owner's
wallet balance by exactly the product price, and appends exactly one
ledger entry tagged vps.refund whose reference id is the session id. -/
theorem result_failed_refunds (hm : String → String → String)
    (pj : String → Option CallbackPayload) (now : Int) (st : SysState)
    (req : CallbackRequest) (worker : WorkerRec) (body : String)
    (payload : CallbackPayload) (sid : Nat) (session : SessionRec)
    (uid : Nat) (u : UserRec) (pid : Nat) (product : ProductRec)
    (hv : verify_request hm now st req = .ok (worker, body))
    (hp : pj body = some payload)
    (hsid : payload.session_id = some sid)
    (hs : getSession st sid = some session)
    (hstat : payload.status = some "failed")
    (_hprov : session.status = "provisioning")
    (huid : session.user_id = some uid)
    (hu : getUser st uid = some u)
    (hpid : session.product_id = some pid)
    (hprod : getProduct st pid = some product)
    (hpr : 0 ≤ product.price_coins)
    (hbal : 0 ≤ userBalance st uid) :
    ∃ st2, worker_result hm pj now st req = .ok st2
      ∧ (getSession st2 sid).map (fun s => s.status) = some "failed"
      ∧ userBalance st2 uid = userBalance st uid + product.price_coins
      ∧ st2.ledger = st.ledger ++
          [{ user_id := uid, entry_type := "vps.refund",
             amount := product.price_coins,
             balance_after := userBalance st uid + product.price_coins,
             ref_id := some sid }] := by
  have hsid2 : session.id = sid := by simpa using List.find?_some hs
  have huid2 : u.id = uid := by simpa using List.find?_some hu
  have hub : userBalance st uid = get_balance st u := by simp [userBalance, hu]
  obtain ⟨stA, hadj⟩ := adjust_balance_ok_of_nonneg st u product.price_coins
    "vps.refund" (some session.id) (by rw [← hub]; omega)
  obtain ⟨_, hbpos, hfw, husers, hledger, htokA, hworkA, hprodA, hsessA, hevA, hdispA⟩ :=
    (adjust_balance_spec_aux st u product.price_coins "vps.refund" (some session.id)).2
      stA (get_balance st u + product.price_coins) hadj
  refine ⟨_, worker_result_failed_eq hm pj now st req worker body payload sid session
    uid u pid product stA (get_balance st u + product.price_coins)
    hv hp hsid hs hstat huid hu hpid hprod hadj, ?_, ?_, ?_⟩
  · simp only [getSession]
    rw [hsessA]
    have hfind := find_map_ite (fun s : SessionRec => s.id == sid)
      (fun _ => { session with status := "failed", updated_at := some now })
      (fun a _ => by simp [hsid2]) st.sessions
    rw [show (fun s : SessionRec => if s.id == session.id
        then { session with status := "failed", updated_at := some now } else s)
      = (fun s : SessionRec => if s.id == sid
        then { session with status := "failed", updated_at := some now } else s) from by
        rw [hsid2]]
    rw [hfind]
    unfold getSession at hs
    rw [hs]
    rfl
  · simp only [userBalance, getUser]
    rw [husers, huid2]
    have hfind := find_map_ite (fun x : UserRec => x.id == uid)
      (fun x => { x with coins := get_balance st u + product.price_coins })
      (fun a ha => ha) st.users
    rw [hfind]
    unfold getUser at hu
    rw [hu]
    simp only [Option.map_some']
    simp only [get_balance, findWallet]
    unfold findWallet at hfw
    rw [show ({ u with coins := get_balance st u + product.price_coins } : UserRec).id
      = u.id from rfl]
    rw [hfw]
    rfl
  · rw [hledger, hsid2, huid2, hub]

def refundSession : SessionRec :=
  { id := 4
    user_id := some 1
    product_id := some 5
    worker_id := some 2
    status := "provisioning"
    checklist := []
    rdp_host := none
    rdp_port := none
    rdp_user := none
    rdp_password := none
    log_url := none
    idempotency_key := some "k"
    updated_at := none }

def refundProduct : ProductRec :=
  { id := 5
    name := "basic"
    price_coins := 25
    provision_action := 1
    is_active := true
    worker_ids := [2] }

def refundPayload : CallbackPayload :=
  { session_id := some 4
    status := some "failed"
    current_jobs := none
    net_mbps := none
    req_rate := none
    items := none
    rdp_host := none
    rdp_port := none
    rdp_user := none
    rdp_password := none
    log_url := none
    message := some "boom" }

def refundPj : String → Option CallbackPayload :=
  fun b => if b == "RB" then some refundPayload else none

def refundDemoState : SysState :=
  { users := [{ id := 1, coins := 75 }]
    wallets := [{ user_id := 1, balance := 75 }]
    ledger := []
    tokens := [{ id := 3, secret := "sec", revoked := false }]
    workers := [verifyDemoWorker]
    products := [refundProduct]
    sessions := [refundSession]
    events := []
    dispatches := [] }

theorem result_failed_refunds_witness :
    ∃ st2, worker_result hmDemo refundPj 1000 refundDemoState verifyDemoReq = .ok st2
      ∧ (getSession st2 4).map (fun s => s.status) = some "failed"
      ∧ userBalance st2 1 = userBalance refundDemoState 1 + refundProduct.price_coins
      ∧ st2.ledger = refundDemoState.ledger ++
          [{ user_id := 1, entry_type := "vps.refund",
             amount := refundProduct.price_coins,
             balance_after := userBalance refundDemoState 1 + refundProduct.price_coins,
             ref_id := some 4 }] :=
  result_failed_refunds hmDemo refundPj 1000 refundDemoState verifyDemoReq
    verifyDemoWorker "RB" refundPayload 4 refundSession 1 { id := 1, coins := 75 }
    5 refundProduct (by decide) (by decide) (by decide) (by decide) (by decide)
    (by decide) (by decide) (by decide) (by decide) (by decide) (by decide) (by decide)

/-- C1 (purchase modelled from the spec, since app/services/vps.py is not
under src/): when a purchase call creates a session (debiting the wallet,
selecting a worker, dispatching and persisting the session under the
idempotency key), a second purchase call with the same user and
idempotency key returns the very same session id with created = false and
the state completely unchanged — no new debit, no new ledger entry, no
new dispatch; and the creating call debited the product price exactly
once, appending exactly one purchase ledger entry and one dispatch. -/
theorem purchase_idempotent (st0 st1 : SysState) (uid pid sid sid2 : Nat)
    (key : String) (dOk2 : Bool)
    (h1 : purchase_and_create true st0 uid pid key sid = .ok (st1, sid, true)) :
    purchase_and_create dOk2 st1 uid pid key sid2 = .ok (st1, sid, false)
    ∧ ∃ u product, getUser st0 uid = some u ∧ getProduct st0 pid = some product
        ∧ userBalance st1 uid = userBalance st0 uid - product.price_coins
        ∧ st1.ledger = st0.ledger ++
            [{ user_id := uid, entry_type := "vps.purchase",
               amount := -product.price_coins,
               balance_after := userBalance st0 uid - product.price_coins,
               ref_id := none }]
        ∧ st1.dispatches = st0.dispatches ++ [sid] := by
  simp only [purchase_and_create] at h1
  cases hfind : st0.sessions.find? (fun s =>
      s.user_id == some uid && s.idempotency_key == some key) with
  | some existing =>
    rw [hfind] at h1
    simp at h1
  | none =>
    rw [hfind] at h1
    simp only [] at h1
    cases hu : getUser st0 uid with
    | none =>
      rw [hu] at h1
      simp only [] at h1
      exact absurd h1 (by simp)
    | some u =>
      rw [hu] at h1
      cases hp : getProduct st0 pid with
      | none =>
        rw [hp] at h1
        simp only [] at h1
        exact absurd h1 (by simp)
      | some product =>
        rw [hp] at h1
        simp only [] at h1
        cases hadj : adjust_balance st0 u (-product.price_coins) "vps.purchase" none with
        | error e =>
          rw [hadj] at h1
          exact absurd h1 (by simp)
        | ok r =>
          rw [hadj] at h1
          simp only [] at h1
          cases hsel : select_worker r.1 product with
          | error e =>
            rw [hsel] at h1
            exact absurd h1 (by simp)
          | ok worker =>
            rw [hsel] at h1
            simp only [if_pos rfl] at h1
            have hinj := Except.ok.inj h1
            have hst1 := (congrArg Prod.fst hinj).symm
            simp only [] at hst1
            obtain ⟨_, hbpos, hfw, husers, hledger, htokA, hworkA, hprodA,
                hsessA, hevA, hdispA⟩ :=
              (adjust_balance_spec_aux st0 u (-product.price_coins)
                "vps.purchase" none).2 r.1 r.2 hadj
            have huid2 : u.id = uid := by simpa using List.find?_some hu
            have hub : userBalance st0 uid = get_balance st0 u := by
              simp [userBalance, hu]
            have hr2 : r.2 = get_balance st0 u + -product.price_coins :=
              ((adjust_balance_spec_aux st0 u (-product.price_coins)
                "vps.purchase" none).2 r.1 r.2 hadj).1
            constructor
            · rw [hst1]
              simp only [purchase_and_create]
              rw [List.find?_cons_of_pos _ (by simp)]
            · refine ⟨u, product, rfl, rfl, ?_, ?_, ?_⟩
              · rw [hst1]
                simp only [userBalance, getUser]
                rw [husers, huid2]
                have hfind2 := find_map_ite (fun x : UserRec => x.id == uid)
                  (fun x => { x with coins := r.2 }) (fun a ha => ha) st0.users
                rw [hfind2]
                unfold getUser at hu
                rw [hu]
                simp only [Option.map_some']
                simp only [get_balance, findWallet]
                unfold findWallet at hfw
                rw [show ({ u with coins := r.2 } : UserRec).id = u.id from rfl]
                rw [hfw]
                show r.2 = get_balance st0 u - product.price_coins
                rw [hr2, sub_eq_add_neg]
              · rw [hst1]
                simp only []
                rw [hledger, huid2, hub, hr2, sub_eq_add_neg]
              · rw [hst1]
                simp only []
                rw [hdispA]

def activeWorker : WorkerRec :=
  { id := 2
    name := some "w"
    base_url := "http://w"
    token_id := none
    status := "active"
    current_jobs := 0
    max_sessions := 3
    last_heartbeat := none
    last_net_mbps := none
    last_req_rate := none }

def purchaseDemoState : SysState :=
  { users := [{ id := 1, coins := 100 }]
    wallets := []
    ledger := []
    tokens := []
    workers := [activeWorker]
    products := [refundProduct]
    sessions := []
    events := []
    dispatches := [] }

def purchaseDemoAfter : SysState :=
  { users := [{ id := 1, coins := 75 }]
    wallets := [{ user_id := 1, balance := 75 }]
    ledger := [{ user_id := 1, entry_type := "vps.purchase", amount := -25,
                 balance_after := 75, ref_id := none }]
    tokens := []
    workers := [activeWorker]
    products := [refundProduct]
    sessions := [{ id := 9, user_id := some 1, product_id := some 5, worker_id := some 2,
                   status := "provisioning", checklist := [], rdp_host := none,
                   rdp_port := none, rdp_user := none, rdp_password := none,
                   log_url := none, idempotency_key := some "abc-123", updated_at := none }]
    events := []
    dispatches := [9] }

theorem purchase_idempotent_witness :
    purchase_and_create false purchaseDemoAfter 1 5 "abc-123" 10
        = .ok (purchaseDemoAfter, 9, false)
    ∧ ∃ u product, getUser purchaseDemoState 1 = some u
        ∧ getProduct purchaseDemoState 5 = some product
        ∧ userBalance purchaseDemoAfter 1
            = userBalance purchaseDemoState 1 - product.price_coins
        ∧ purchaseDemoAfter.ledger = purchaseDemoState.ledger ++
            [{ user_id := 1, entry_type := "vps.purchase",
               amount := -product.price_coins,
               balance_after := userBalance purchaseDemoState 1 - product.price_coins,
               ref_id := none }]
        ∧ purchaseDemoAfter.dispatches = purchaseDemoState.dispatches ++ [9] :=
  purchase_idempotent purchaseDemoState purchaseDemoAfter 1 5 9 10 "abc-123" false
    (by decide)

def c9Worker : WorkerRec :=
  { id := 2
    name := some "w"
    base_url := "http://w"
    token_id := some 3
    status := "idle"
    current_jobs := 0
    max_sessions := 3
    last_heartbeat := some 1000
    last_net_mbps := none
    last_req_rate := none }

def c9Session : SessionRec :=
  { id := 4
    user_id := some 1
    product_id := some 5
    worker_id := some 2
    status := "failed"
    checklist := []
    rdp_host := none
    rdp_port := none
    rdp_user := none
    rdp_password := none
    log_url := none
    idempotency_key := some "k"
    updated_at := some 1000 }

def c9Entry (bb : Int) : LedgerRec :=
  { user_id := 1
    entry_type := "vps.refund"
    amount := 25
    balance_after := bb
    ref_id := some 4 }

def c9Ev1 : Nat × EventMsg := (4, { event := "status.update", data := .statusUpdate "failed" })

def c9Ev2 : Nat × EventMsg := (4, { event := "failed", data := .failed "boom" })

/-- A family of states around an already-failed session: user 1 holds
balance b, the ledger and published events are parameters, and the rest
is fixed concrete data. -/
def stC9 (b : Int) (led : List LedgerRec) (ev : List (Nat × EventMsg)) : SysState :=
  { users := [{ id := 1, coins := b }]
    wallets := [{ user_id := 1, balance := b }]
    ledger := led
    tokens := [{ id := 3, secret := "sec", revoked := false }]
    workers := [c9Worker]
    products := [refundProduct]
    sessions := [c9Session]
    events := ev
    dispatches := [] }

theorem c9_step (b : Int) (hb : 0 ≤ b) (led : List LedgerRec)
    (ev : List (Nat × EventMsg)) :
    worker_result hmDemo refundPj 1000 (stC9 b led ev) verifyDemoReq
      = .ok (stC9 (b + 25) (led ++ [c9Entry (b + 25)]) (ev ++ [c9Ev1, c9Ev2])) := by
  have hnneg : ¬ (b + 25 < 0) := by omega
  have hadj : adjust_balance (stC9 b led ev) { id := 1, coins := b }
      refundProduct.price_coins "vps.refund" (some c9Session.id)
      = .ok (stC9 (b + 25) (led ++ [c9Entry (b + 25)]) ev, b + 25) := by
    have hfw : findWallet (stC9 b led ev) 1 = some { user_id := 1, balance := b } := rfl
    have hnneg2 : ¬ (b + refundProduct.price_coins < 0) := by
      show ¬ (b + 25 < 0)
      omega
    simp only [adjust_balance, hfw]
    rw [if_neg hnneg2]
    rfl
  rw [worker_result_failed_eq hmDemo refundPj 1000 (stC9 b led ev) verifyDemoReq
    c9Worker "RB" refundPayload 4 c9Session 1 { id := 1, coins := b } 5 refundProduct
    (stC9 (b + 25) (led ++ [c9Entry (b + 25)]) ev) (b + 25)
    rfl rfl rfl rfl rfl rfl rfl rfl rfl hadj]
  rw [List.append_assoc]
  rfl

def c9Bal (n : Nat) : Int := 100 + (n : Int) * 25

def c9Ledger : Nat → List LedgerRec
  | 0 => []
  | n + 1 => c9Ledger n ++ [c9Entry (c9Bal (n + 1))]

def c9Events : Nat → List (Nat × EventMsg)
  | 0 => []
  | n + 1 => c9Events n ++ [c9Ev1, c9Ev2]

/-- n authenticated failed-result callbacks replayed against the same
already-failed session, each one a unit of work (an error would keep the
previous state). -/
def c9Iter : Nat → SysState
  | 0 => stC9 100 [] []
  | n + 1 =>
    match worker_result hmDemo refundPj 1000 (c9Iter n) verifyDemoReq with
    | .ok st2 => st2
    | .error _ => c9Iter n

theorem c9Bal_nonneg (n : Nat) : 0 ≤ c9Bal n := by
  unfold c9Bal
  positivity

theorem c9Iter_eq (n : Nat) :
    c9Iter n = stC9 (c9Bal n) (c9Ledger n) (c9Events n) := by
  induction n with
  | zero => rfl
  | succ n ih =>
    have hb2 : c9Bal n + 25 = c9Bal (n + 1) := by
      unfold c9Bal
      push_cast
      ring
    simp only [c9Iter]
    rw [ih, c9_step (c9Bal n) (c9Bal_nonneg n) (c9Ledger n) (c9Events n)]
    rw [hb2]
    rfl

theorem c9Ledger_count (n : Nat) :
    ((c9Ledger n).filter (fun e =>
      e.entry_type == "vps.refund" && e.ref_id == some 4)).length = n := by
  induction n with
  | zero => rfl
  | succ n ih => simp [c9Ledger, List.filter_append, ih, c9Entry]

/-- C9: the result-callback handler does not require the session to be in
provisioning state: starting from a session already in failed state with
an owning user (balance 100) and a product priced 25, every further
authenticated failed-result callback is accepted again, keeps the session
failed, credits the owner the product price again and appends one more
vps.refund ledger entry referencing the session — after n replays the
balance is 100 + n·25 and there are n refund entries. -/
theorem repeated_failed_refunds (n : Nat) :
    (worker_result hmDemo refundPj 1000 (c9Iter n) verifyDemoReq).isOk = true
    ∧ userBalance (c9Iter n) 1 = 100 + (n : Int) * 25
    ∧ ((c9Iter n).ledger.filter (fun e =>
        e.entry_type == "vps.refund" && e.ref_id == some 4)).length = n
    ∧ (getSession (c9Iter n) 4).map (fun s => s.status) = some "failed" := by
  refine ⟨?_, ?_, ?_, ?_⟩
  · rw [c9Iter_eq, c9_step (c9Bal n) (c9Bal_nonneg n) (c9Ledger n) (c9Events n)]
    rfl
  · rw [c9Iter_eq]
    rfl
  · rw [c9Iter_eq]
    exact c9Ledger_count n
  · rw [c9Iter_eq]
    rfl
